import Mathlib

/-!
Shallow embedding of the SENTINEL-X autonomous defense core
(`utils.py`: `SentinelState` and its accessor operations;
`sentinel_engine.py`: `SentinelEngine.modbus_loop`, `vision_loop`,
`telemetry_loop`), together with proofs of the specified properties.

Shared state is a record; each Python accessor method becomes a pure
function on the record.  The concurrent system is modelled as a labelled
transition system whose events are exactly the shared-state mutations the
engine's threads perform, with the guards the code enforces (the modbus
thread stops looping after the kill-switch; the kill-switch fires only
after a snapshot showed `lockdown = true`).
-/

namespace SentinelX

/-- From `utils.py`, `SentinelState.__init__`: the fields of the shared state.
Host stats are the two percentages written by `update_host`. -/
structure SentinelState where
  ics_logs : List String
  visual_analysis : String
  verdict : String
  lockdown : Bool
  host_cpu : ℚ
  host_ram : ℚ
  plc_status : String
  deriving Repr, DecidableEq

/-- Initial state from `SentinelState.__init__`. -/
def initState : SentinelState :=
  { ics_logs := []
    visual_analysis := "Initializing Industrial Defense..."
    verdict := "SECURE"
    lockdown := false
    host_cpu := 0
    host_ram := 0
    plc_status := "CONNECTING..." }

/-- Model of `SentinelState.add_log`: append the line; if the ring then exceeds 50
entries, drop the oldest (`pop(0)`). -/
def SentinelState.add_log (s : SentinelState) (log : String) : SentinelState :=
  let logs := s.ics_logs ++ [log]
  { s with ics_logs := if logs.length > 50 then logs.tail else logs }

/-- Model of `SentinelState.update_analysis`: overwrite text and verdict; if the
verdict is `"ATTACK"`, set the lockdown flag. -/
def SentinelState.update_analysis (s : SentinelState) (text verdict : String) :
    SentinelState :=
  { s with visual_analysis := text
           verdict := verdict
           lockdown := if verdict = "ATTACK" then true else s.lockdown }

/-- Model of `SentinelState.set_plc_status`: overwrite the Modbus connection status. -/
def SentinelState.set_plc_status (s : SentinelState) (status : String) :
    SentinelState :=
  { s with plc_status := status }

/-- Model of `SentinelState.update_host`: overwrite host telemetry stats. -/
def SentinelState.update_host (s : SentinelState) (cpu ram : ℚ) : SentinelState :=
  { s with host_cpu := cpu, host_ram := ram }

/-- Whether `needle` is a leading segment of `haystack` (character lists). -/
def startsWithChars : List Char → List Char → Bool
  | [], _ => true
  | _ :: _, [] => false
  | a :: as, b :: bs => a = b && startsWithChars as bs

/-- Whether `needle` occurs as a contiguous run somewhere in `haystack`. -/
def containsRun (needle : List Char) : List Char → Bool
  | [] => needle.isEmpty
  | b :: bs => startsWithChars needle (b :: bs) || containsRun needle bs

/-- Python's `needle in haystack` substring test on strings. -/
def strContains (haystack needle : String) : Bool :=
  containsRun needle.data haystack.data

/-- Python's `str.upper()` (the strings involved are ASCII). -/
def upper (s : String) : String :=
  ⟨s.data.map Char.toUpper⟩

/-- Model of `vision_loop` line 166: `"ATTACK" if "VERDICT: ATTACK" in txt.upper()
else "SECURE"`. -/
def parseVerdict (txt : String) : String :=
  if strContains (upper txt) "VERDICT: ATTACK" then "ATTACK" else "SECURE"

/-- Case-insensitive occurrence of a token anywhere in a text: both sides
upper-cased, then substring. -/
def occursCI (txt token : String) : Bool :=
  strContains (upper txt) (upper token)

/-- Model of `vision_loop` lines 165–167: strip is applied upstream; publish the
response text with the parsed verdict through `update_analysis`. -/
def visionPublish (s : SentinelState) (txt : String) : SentinelState :=
  s.update_analysis txt (parseVerdict txt)

theorem attackToken_upper :
    upper "VERDICT: ATTACK" = "VERDICT: ATTACK" := by decide

/-- **C1.** The published verdict is `ATTACK` iff the token
`"VERDICT: ATTACK"` occurs case-insensitively anywhere in the response
text, and `SECURE` otherwise; `update_analysis` then stores exactly the
pair (response text, that verdict). -/
theorem C1_verdict_parse (s : SentinelState) (txt : String) :
    ((visionPublish s txt).verdict = "ATTACK" ↔
        occursCI txt "VERDICT: ATTACK" = true) ∧
    (occursCI txt "VERDICT: ATTACK" = false →
        (visionPublish s txt).verdict = "SECURE") ∧
    (visionPublish s txt).visual_analysis = txt ∧
    visionPublish s txt = s.update_analysis txt (parseVerdict txt) := by
  have hocc : occursCI txt "VERDICT: ATTACK" =
      strContains (upper txt) "VERDICT: ATTACK" := by
    unfold occursCI
    rw [attackToken_upper]
  refine ⟨?_, ?_, ?_, rfl⟩
  · rw [hocc]
    unfold visionPublish parseVerdict SentinelState.update_analysis
    by_cases h : strContains (upper txt) "VERDICT: ATTACK" = true
    · simp [h]
    · simp only [Bool.not_eq_true] at h
      simp [h]
  · intro h
    rw [hocc] at h
    unfold visionPublish parseVerdict SentinelState.update_analysis
    simp [h]
  · unfold visionPublish SentinelState.update_analysis
    rfl

/-- Witness for C1 at a concrete response text. -/
theorem C1_verdict_parse_witness :
    (visionPublish initState "Reasoning: smoke. Verdict: attack").verdict
      = "ATTACK" :=
  (C1_verdict_parse initState "Reasoning: smoke. Verdict: attack").1.mpr
    (by decide)

/-! ## Kill-switch procedure (`modbus_loop` lines 69–83) -/

/-- The log line appended after the network connection is closed. -/
def severedLine : String := "[SENTINEL] NETWORK CONNECTION SEVERED."

/-- The log line appended after a successful process termination. -/
def isolationLine (pid : Nat) : String :=
  "[SENTINEL] PHYSICAL ISOLATION: PID " ++ toString pid ++ " Terminated."

/-- Model of `modbus_loop` lines 69–83, shared-state effects of the kill-switch:
if the controller PID was resolved, attempt to terminate it and (when the
kill succeeds) log the isolation line — termination failures are swallowed
by `except: pass`; then, regardless, close the client, set the status to
`"ISOLATED (SAFE)"` and log the severed line.  `pid` is the resolved PID
(`None` when `_get_plc_pid` found nothing) and `killOk` tells whether
`p.kill()` succeeded. -/
def killSwitchRun (s : SentinelState) (pid : Option Nat) (killOk : Bool) :
    SentinelState :=
  let s1 := match pid with
    | some p => if killOk then s.add_log (isolationLine p) else s
    | none => s
  (s1.set_plc_status "ISOLATED (SAFE)").add_log severedLine

/-- External (non-shared-state) actions of the kill-switch, in program
order: the termination attempt when the PID was resolved, then closing
the Modbus client, then the ISOLATED status write, then the severed-line
log append. -/
inductive KAct where
  | termAttempt (pid : Nat)
  | closeConn
  | setIsolated
  | logSevered
  deriving Repr, DecidableEq

/-- Ordered action list of `modbus_loop` lines 69–83. -/
def killSwitchActs (pid : Option Nat) : List KAct :=
  (match pid with
    | some p => [KAct.termAttempt p]
    | none => []) ++ [KAct.closeConn, KAct.setIsolated, KAct.logSevered]

/-! ## The concurrent system as a labelled transition system

Each event is one shared-state mutation performed by one of the engine's
threads, under the guard the code enforces at that call site: the modbus
thread's status writes and its kill-switch only run while the modbus loop
is still looping (`mdone = false`); the kill-switch additionally requires
that a snapshot showed `lockdown = true` (since `lockdown` is monotone,
the observed value still holds when the branch runs).  Log, analysis and
host writes are left unguarded — a superset of the behaviours of the
vision, telemetry and modbus threads, so invariants proved over all
traces hold for the program. -/

/-- A shared-state mutation event. -/
inductive Ev where
  | log (line : String)
  | analysis (text verdict : String)
  | plc (status : String)
  | host (cpu ram : ℚ)
  | kill (pid : Option Nat) (killOk : Bool)
  deriving Repr, DecidableEq

/-- Effect of one event on the shared state. -/
def applyEv (s : SentinelState) : Ev → SentinelState
  | Ev.log l => s.add_log l
  | Ev.analysis t v => s.update_analysis t v
  | Ev.plc st => s.set_plc_status st
  | Ev.host c r => s.update_host c r
  | Ev.kill pid ok => killSwitchRun s pid ok

/-- System configuration: the shared state plus whether the modbus loop
has exited (`break` after the kill-switch). -/
structure Config where
  st : SentinelState
  mdone : Bool
  deriving Repr, DecidableEq

/-- Initial configuration. -/
def initConfig : Config := ⟨initState, false⟩

/-- One step of the system. -/
inductive SysStep : Config → Ev → Config → Prop where
  | log (c : Config) (l : String) :
      SysStep c (Ev.log l) ⟨c.st.add_log l, c.mdone⟩
  | analysis (c : Config) (t v : String) :
      SysStep c (Ev.analysis t v) ⟨c.st.update_analysis t v, c.mdone⟩
  | host (c : Config) (cpu ram : ℚ) :
      SysStep c (Ev.host cpu ram) ⟨c.st.update_host cpu ram, c.mdone⟩
  | plcOffline (c : Config) (h : c.mdone = false) :
      SysStep c (Ev.plc "OFFLINE") ⟨c.st.set_plc_status "OFFLINE", false⟩
  | plcOnline (c : Config) (h : c.mdone = false) :
      SysStep c (Ev.plc "ONLINE (MODBUS_TCP)")
        ⟨c.st.set_plc_status "ONLINE (MODBUS_TCP)", false⟩
  | kill (c : Config) (pid : Option Nat) (ok : Bool)
      (h : c.mdone = false) (hl : c.st.lockdown = true) :
      SysStep c (Ev.kill pid ok) ⟨killSwitchRun c.st pid ok, true⟩

/-- Multi-step reachability along a list of events. -/
inductive Reach : Config → List Ev → Config → Prop where
  | nil (c : Config) : Reach c [] c
  | cons {c c' c'' : Config} {e : Ev} {evs : List Ev} :
      SysStep c e c' → Reach c' evs c'' → Reach c (e :: evs) c''

/-- **C10.** `set_plc_status` is an unconditional overwrite: for every
status `st` and every prior state, including one whose status is already
`"ISOLATED (SAFE)"`, the result's status is exactly `st` and every other
field is unchanged; the operation itself enforces no ISOLATED
monotonicity. -/
theorem C10_set_plc_status_overwrite (s : SentinelState) (st : String) :
    ((s.set_plc_status st).plc_status = st ∧
     (s.set_plc_status st).ics_logs = s.ics_logs ∧
     (s.set_plc_status st).visual_analysis = s.visual_analysis ∧
     (s.set_plc_status st).verdict = s.verdict ∧
     (s.set_plc_status st).lockdown = s.lockdown ∧
     (s.set_plc_status st).host_cpu = s.host_cpu ∧
     (s.set_plc_status st).host_ram = s.host_ram) ∧
    ((s.set_plc_status "ISOLATED (SAFE)").set_plc_status st).plc_status = st := by
  exact ⟨⟨rfl, rfl, rfl, rfl, rfl, rfl, rfl⟩, rfl⟩

/-! ## Basic facts about the operations -/

theorem killSwitchRun_plc_status (s : SentinelState) (pid : Option Nat)
    (ok : Bool) : (killSwitchRun s pid ok).plc_status = "ISOLATED (SAFE)" := by
  cases pid <;> cases ok <;> rfl

theorem killSwitchRun_lockdown (s : SentinelState) (pid : Option Nat)
    (ok : Bool) : (killSwitchRun s pid ok).lockdown = s.lockdown := by
  cases pid <;> cases ok <;> rfl

theorem tail_getLast? {α : Type} (l : List α) (h : 2 ≤ l.length) :
    l.tail.getLast? = l.getLast? := by
  match l with
  | [] => simp at h
  | [a] => simp at h
  | a :: b :: t => simp [List.getLast?_cons_cons]

theorem add_log_getLast (s : SentinelState) (l : String) :
    (s.add_log l).ics_logs.getLast? = some l := by
  unfold SentinelState.add_log
  by_cases h : (s.ics_logs ++ [l]).length > 50
  · simp only [h, if_pos]
    rw [tail_getLast? _ (by omega)]
    exact List.getLast?_concat _
  · simp only [h, if_neg, not_false_iff]
    exact List.getLast?_concat _

/-- Every shared-state operation the system performs preserves a raised
lockdown flag: nothing ever writes `lockdown := false`. -/
theorem applyEv_lockdown_mono (s : SentinelState) (e : Ev)
    (h : s.lockdown = true) : (applyEv s e).lockdown = true := by
  cases e with
  | log l => exact h
  | analysis t v =>
      unfold applyEv SentinelState.update_analysis
      by_cases hv : v = "ATTACK" <;> simp [hv, h]
  | plc st => exact h
  | host c r => exact h
  | kill pid ok => rw [applyEv, killSwitchRun_lockdown]; exact h

theorem sysStep_apply {c c' : Config} {e : Ev} (h : SysStep c e c') :
    c'.st = applyEv c.st e := by
  cases h <;> rfl

theorem sysStep_lockdown_mono {c c' : Config} {e : Ev} (h : SysStep c e c')
    (hl : c.st.lockdown = true) : c'.st.lockdown = true := by
  rw [sysStep_apply h]
  exact applyEv_lockdown_mono _ _ hl

theorem reach_lockdown_mono {c : Config} {evs : List Ev} {c' : Config}
    (h : Reach c evs c') (hl : c.st.lockdown = true) :
    c'.st.lockdown = true := by
  induction h with
  | nil _ => exact hl
  | cons hstep _ ih => exact ih (sysStep_lockdown_mono hstep hl)

/-- After the modbus loop has exited, no step touches the link status or
restarts the loop, and no further kill-switch event is possible. -/
theorem sysStep_done_frame {c c' : Config} {e : Ev} (h : SysStep c e c')
    (hd : c.mdone = true) :
    c'.st.plc_status = c.st.plc_status ∧ c'.mdone = true ∧
      (∀ pid ok, e ≠ Ev.kill pid ok) := by
  cases h with
  | log l => exact ⟨rfl, hd, by intro pid ok hne; cases hne⟩
  | analysis t v => exact ⟨rfl, hd, by intro pid ok hne; cases hne⟩
  | host cpu ram => exact ⟨rfl, hd, by intro pid ok hne; cases hne⟩
  | plcOffline hm => rw [hm] at hd; cases hd
  | plcOnline hm => rw [hm] at hd; cases hd
  | kill pid ok hm hl => rw [hm] at hd; cases hd

theorem reach_done_frame {c : Config} {evs : List Ev} {c' : Config}
    (h : Reach c evs c') (hd : c.mdone = true) :
    c'.st.plc_status = c.st.plc_status ∧ c'.mdone = true := by
  induction h with
  | nil _ => exact ⟨rfl, hd⟩
  | cons hstep _ ih =>
      obtain ⟨h1, h2, _⟩ := sysStep_done_frame hstep hd
      obtain ⟨h3, h4⟩ := ih h2
      exact ⟨h3.trans h1, h4⟩

/-- Inductive invariant: an ISOLATED link status can only exist after the
kill-switch ran, hence with the modbus loop exited and lockdown raised. -/
def IsoInv (c : Config) : Prop :=
  c.st.plc_status = "ISOLATED (SAFE)" → (c.mdone = true ∧ c.st.lockdown = true)

theorem sysStep_isoInv {c c' : Config} {e : Ev} (h : SysStep c e c')
    (hi : IsoInv c) : IsoInv c' := by
  cases h with
  | log l =>
      intro hp
      obtain ⟨h1, h2⟩ := hi hp
      exact ⟨h1, h2⟩
  | analysis t v =>
      intro hp
      obtain ⟨h1, h2⟩ := hi hp
      refine ⟨h1, ?_⟩
      show (SentinelState.update_analysis _ t v).lockdown = true
      unfold SentinelState.update_analysis
      by_cases hv : v = "ATTACK" <;> simp [hv, h2]
  | host cpu ram =>
      intro hp
      obtain ⟨h1, h2⟩ := hi hp
      exact ⟨h1, h2⟩
  | plcOffline hm =>
      intro hp
      simp [SentinelState.set_plc_status] at hp
  | plcOnline hm =>
      intro hp
      simp [SentinelState.set_plc_status] at hp
  | kill pid ok hm hl =>
      intro _
      exact ⟨rfl, by rw [killSwitchRun_lockdown]; exact hl⟩

theorem reach_isoInv {c : Config} {evs : List Ev} {c' : Config}
    (h : Reach c evs c') (hi : IsoInv c) : IsoInv c' := by
  induction h with
  | nil _ => exact hi
  | cons hstep _ ih => exact ih (sysStep_isoInv hstep hi)

theorem initConfig_isoInv : IsoInv initConfig := by
  intro hp
  simp [initConfig, initState] at hp

/-- If no `setAnalysis(_, "ATTACK")` event occurs along a trace, a low
lockdown flag stays low. -/
theorem reach_no_attack {c : Config} {evs : List Ev} {c' : Config}
    (h : Reach c evs c') (hl : c.st.lockdown = false)
    (hna : ∀ t, Ev.analysis t "ATTACK" ∉ evs) : c'.st.lockdown = false := by
  induction h with
  | nil _ => exact hl
  | cons hstep htail ih =>
      rename_i cc cc' cc'' e evtail
      have hna' : ∀ t, Ev.analysis t "ATTACK" ∉ evtail := by
        intro t hmem
        exact hna t (List.mem_cons_of_mem _ hmem)
      refine ih ?_ hna'
      cases hstep with
      | log l => exact hl
      | analysis t v =>
          have hv : v ≠ "ATTACK" := by
            intro hv
            exact hna t (by rw [hv]; exact List.mem_cons_self _ _)
          show (SentinelState.update_analysis _ t v).lockdown = false
          unfold SentinelState.update_analysis
          simp [hv, hl]
      | host cpu ram => exact hl
      | plcOffline hm => exact hl
      | plcOnline hm => exact hl
      | kill pid ok hm hlck => rw [hl] at hlck; cases hlck

/-! ## Claims C2, C3, C6, C5 -/

/-- **C2.** In every reachable state: a raised lockdown flag implies some
earlier `setAnalysis` event carried verdict ATTACK; ISOLATED link status
implies lockdown; and in a run with no ATTACK `setAnalysis` event (such
as the credential-absent degraded mode, which publishes a fixed SECURE
analysis) lockdown stays false for the whole run. -/
theorem C2_lockdown_invariant (evs : List Ev) (c : Config)
    (h : Reach initConfig evs c) :
    (c.st.lockdown = true → ∃ t, Ev.analysis t "ATTACK" ∈ evs) ∧
    (c.st.plc_status = "ISOLATED (SAFE)" → c.st.lockdown = true) ∧
    ((∀ t, Ev.analysis t "ATTACK" ∉ evs) → c.st.lockdown = false) := by
  have hno : (∀ t, Ev.analysis t "ATTACK" ∉ evs) → c.st.lockdown = false :=
    fun hna => reach_no_attack h rfl hna
  refine ⟨?_, ?_, hno⟩
  · intro hl
    by_contra hns
    push_neg at hns
    rw [hno hns] at hl
    cases hl
  · intro hp
    exact (reach_isoInv h initConfig_isoInv hp).2

/-- Witness for C2: the degraded-mode run that publishes only the fixed
`NO API KEY` SECURE analysis leaves lockdown false. -/
theorem C2_lockdown_invariant_witness :
    (⟨initState.update_analysis "CRITICAL: NO API KEY CONFIGURED" "SECURE",
        false⟩ : Config).st.lockdown = false :=
  (C2_lockdown_invariant
      [Ev.analysis "CRITICAL: NO API KEY CONFIGURED" "SECURE"]
      ⟨initState.update_analysis "CRITICAL: NO API KEY CONFIGURED" "SECURE",
        false⟩
      (Reach.cons (SysStep.analysis initConfig _ _) (Reach.nil _))).2.2
    (by intro t ht; simp at ht)

/-- **C3.** Lockdown is write-once false→true: a `setAnalysis` with
verdict ATTACK raises it, no shared-state operation the system performs
ever lowers it, and along any trace a raised flag stays raised in every
subsequent snapshot. -/
theorem C3_lockdown_write_once :
    (∀ (s : SentinelState) (t : String),
        (s.update_analysis t "ATTACK").lockdown = true) ∧
    (∀ (s : SentinelState) (e : Ev), s.lockdown = true →
        (applyEv s e).lockdown = true) ∧
    (∀ (c : Config) (evs : List Ev) (c' : Config), Reach c evs c' →
        c.st.lockdown = true → c'.st.lockdown = true) := by
  refine ⟨?_, ?_, ?_⟩
  · intro s t
    unfold SentinelState.update_analysis
    simp
  · exact applyEv_lockdown_mono
  · intro c evs c' h hl
    exact reach_lockdown_mono h hl

/-- Witness for C3: after an ATTACK analysis, a later log step still
reports lockdown true. -/
theorem C3_lockdown_write_once_witness :
    (⟨(initState.update_analysis "x" "ATTACK").add_log "a", false⟩ :
        Config).st.lockdown = true :=
  C3_lockdown_write_once.2.2
    ⟨initState.update_analysis "x" "ATTACK", false⟩ [Ev.log "a"]
    ⟨(initState.update_analysis "x" "ATTACK").add_log "a", false⟩
    (Reach.cons (SysStep.log _ _) (Reach.nil _)) (by decide)

/-- **C6.** ISOLATED is terminal: once a reachable snapshot reports the
link status ISOLATED, every later snapshot of the run reports ISOLATED
and no other status. -/
theorem C6_isolated_terminal (evs : List Ev) (c : Config)
    (h : Reach initConfig evs c)
    (hiso : c.st.plc_status = "ISOLATED (SAFE)")
    (evs' : List Ev) (c' : Config) (h' : Reach c evs' c') :
    c'.st.plc_status = "ISOLATED (SAFE)" := by
  have hd : c.mdone = true := (reach_isoInv h initConfig_isoInv hiso).1
  exact (reach_done_frame h' hd).1.trans hiso

/-- Witness for C6: reach ISOLATED via an ATTACK analysis and the
kill-switch, then take one more log step; the status is still ISOLATED. -/
theorem C6_isolated_terminal_witness :
    (⟨(killSwitchRun (initState.update_analysis "x" "ATTACK") none false).add_log
        "a", true⟩ : Config).st.plc_status = "ISOLATED (SAFE)" :=
  C6_isolated_terminal
    [Ev.analysis "x" "ATTACK", Ev.kill none false]
    ⟨killSwitchRun (initState.update_analysis "x" "ATTACK") none false, true⟩
    (Reach.cons (SysStep.analysis initConfig _ _)
      (Reach.cons (SysStep.kill _ none false rfl (by decide)) (Reach.nil _)))
    (by decide)
    [Ev.log "a"]
    ⟨(killSwitchRun (initState.update_analysis "x" "ATTACK") none false).add_log
        "a", true⟩
    (Reach.cons (SysStep.log _ _) (Reach.nil _))

/-- Recogniser for kill-switch events. -/
def isKillEv : Ev → Bool
  | Ev.kill _ _ => true
  | _ => false

theorem reach_done_no_kill {c : Config} {evs : List Ev} {c' : Config}
    (h : Reach c evs c') : c.mdone = true → evs.countP isKillEv = 0 := by
  induction h with
  | nil _ => intro _; rfl
  | cons hstep _ ih =>
      intro hd
      cases hstep with
      | log l => rw [List.countP_cons, ih hd]; rfl
      | analysis t v => rw [List.countP_cons, ih hd]; rfl
      | host cpu ram => rw [List.countP_cons, ih hd]; rfl
      | plcOffline hm => rw [hm] at hd; cases hd
      | plcOnline hm => rw [hm] at hd; cases hd
      | kill pid ok hm hl => rw [hm] at hd; cases hd

theorem reach_kill_le_one {c : Config} {evs : List Ev} {c' : Config}
    (h : Reach c evs c') : evs.countP isKillEv ≤ 1 := by
  induction h with
  | nil _ => simp
  | cons hstep htail ih =>
      cases hstep with
      | kill pid ok hm hl =>
          have h0 := reach_done_no_kill htail rfl
          simp [List.countP_cons, isKillEv, h0]
      | log l => simpa [List.countP_cons, isKillEv] using ih
      | analysis t v => simpa [List.countP_cons, isKillEv] using ih
      | host cpu ram => simpa [List.countP_cons, isKillEv] using ih
      | plcOffline hm => simpa [List.countP_cons, isKillEv] using ih
      | plcOnline hm => simpa [List.countP_cons, isKillEv] using ih

/-- **C5.** The kill-switch, when the modbus loop first observes lockdown:
terminates the resolved controller process when (and only when) its PID
was resolved, with the always-executed close of the Modbus client, the
ISOLATED status write and the severed-line log append following in order
regardless of the termination outcome; the resulting state reports the
ISOLATED status and ends its log with the severed line (which carries the
text "NETWORK CONNECTION SEVERED."), and every other analysis-related
field is untouched; along any trace of the system the kill-switch event
occurs at most once, and none can occur after the modbus loop exited. -/
theorem C5_kill_switch (s : SentinelState) (pid : Option Nat) (ok : Bool)
    (evs : List Ev) (c : Config) (h : Reach initConfig evs c) :
    ((killSwitchRun s pid ok).plc_status = "ISOLATED (SAFE)" ∧
     (killSwitchRun s pid ok).ics_logs.getLast? = some severedLine ∧
     (killSwitchRun s pid ok).lockdown = s.lockdown ∧
     (killSwitchRun s pid ok).verdict = s.verdict ∧
     (killSwitchRun s pid ok).visual_analysis = s.visual_analysis) ∧
    (∃ pre, killSwitchActs pid =
        pre ++ [KAct.closeConn, KAct.setIsolated, KAct.logSevered] ∧
      ∀ a ∈ pre, ∃ p, a = KAct.termAttempt p ∧ pid = some p) ∧
    ((∃ p, KAct.termAttempt p ∈ killSwitchActs pid) ↔ pid.isSome = true) ∧
    strContains severedLine "NETWORK CONNECTION SEVERED." = true ∧
    evs.countP isKillEv ≤ 1 ∧
    (c.mdone = true → ∀ evs' c', Reach c evs' c' →
      evs'.countP isKillEv = 0) := by
  refine ⟨⟨killSwitchRun_plc_status s pid ok, ?_, killSwitchRun_lockdown s pid ok,
      ?_, ?_⟩, ?_, ?_, by decide, reach_kill_le_one h, ?_⟩
  · cases pid with
    | none => exact add_log_getLast _ _
    | some p => cases ok <;> exact add_log_getLast _ _
  · cases pid with
    | none => rfl
    | some p => cases ok <;> rfl
  · cases pid with
    | none => rfl
    | some p => cases ok <;> rfl
  · cases pid with
    | none =>
        refine ⟨[], rfl, ?_⟩
        intro a ha
        cases ha
    | some p =>
        refine ⟨[KAct.termAttempt p], rfl, ?_⟩
        intro a ha
        rw [List.mem_singleton] at ha
        exact ⟨p, ha, rfl⟩
  · cases pid with
    | none => simp [killSwitchActs]
    | some p => simp [killSwitchActs]
  · intro hd evs' c' h'
    exact reach_done_no_kill h' hd

/-- Witness for C5 at a resolved PID and the empty trace. -/
theorem C5_kill_switch_witness :
    (killSwitchRun initState (some 7) true).plc_status = "ISOLATED (SAFE)" :=
  (C5_kill_switch initState (some 7) true [] initConfig (Reach.nil _)).1.1

/-! ## The log ring (C7, C9) -/

/-- The last `n` elements of a list, in order. -/
def lastN {α : Type} (n : Nat) (l : List α) : List α :=
  l.drop (l.length - n)

theorem add_log_length_le (s : SentinelState) (l : String)
    (h : s.ics_logs.length ≤ 50) : (s.add_log l).ics_logs.length ≤ 50 := by
  show (if (s.ics_logs ++ [l]).length > 50 then (s.ics_logs ++ [l]).tail
      else s.ics_logs ++ [l]).length ≤ 50
  by_cases hlen : (s.ics_logs ++ [l]).length > 50
  · rw [if_pos hlen]
    rw [List.length_tail]
    simp at hlen ⊢
    omega
  · rw [if_neg hlen]
    omega

theorem lastN_of_le {α : Type} (n : Nat) (l : List α) (h : l.length ≤ n) :
    lastN n l = l := by
  unfold lastN
  rw [Nat.sub_eq_zero_of_le h, List.drop_zero]

theorem lastN_cons {α : Type} (n : Nat) (x : α) (xs : List α)
    (h : n ≤ xs.length) : lastN n (x :: xs) = lastN n xs := by
  unfold lastN
  have : (x :: xs).length - n = (xs.length - n) + 1 := by
    simp only [List.length_cons]
    omega
  rw [this, List.drop_succ_cons]

theorem foldl_add_log (lines : List String) :
    ∀ s : SentinelState, s.ics_logs.length ≤ 50 →
      (lines.foldl SentinelState.add_log s).ics_logs =
        lastN 50 (s.ics_logs ++ lines) := by
  induction lines with
  | nil =>
      intro s h
      simp only [List.foldl_nil, List.append_nil]
      exact (lastN_of_le 50 _ h).symm
  | cons l ls ih =>
      intro s h
      rw [List.foldl_cons]
      rw [ih _ (add_log_length_le s l h)]
      by_cases hlen : (s.ics_logs ++ [l]).length > 50
      · have h50 : s.ics_logs.length = 50 := by
          simp at hlen
          omega
        obtain ⟨x, xs, hxs⟩ : ∃ x xs, s.ics_logs = x :: xs := by
          cases hcs : s.ics_logs with
          | nil => rw [hcs] at h50; simp at h50
          | cons a as => exact ⟨a, as, rfl⟩
        have hxl : xs.length = 49 := by
          rw [hxs] at h50
          simp at h50
          omega
        have hlogs : (s.add_log l).ics_logs = xs ++ [l] := by
          show (if (s.ics_logs ++ [l]).length > 50 then (s.ics_logs ++ [l]).tail
              else s.ics_logs ++ [l]) = xs ++ [l]
          rw [if_pos hlen, hxs]
          rfl
        rw [hlogs, hxs]
        have hassoc : (xs ++ [l]) ++ ls = xs ++ (l :: ls) := by
          rw [List.append_assoc]
          rfl
        have hassoc2 : (x :: xs) ++ (l :: ls) = x :: (xs ++ (l :: ls)) := rfl
        rw [hassoc, hassoc2, lastN_cons]
        simp [hxl]
        omega
      · have hlogs : (s.add_log l).ics_logs = s.ics_logs ++ [l] := by
          show (if (s.ics_logs ++ [l]).length > 50 then (s.ics_logs ++ [l]).tail
              else s.ics_logs ++ [l]) = s.ics_logs ++ [l]
          rw [if_neg hlen]
        rw [hlogs, List.append_assoc]
        rfl

/-- **C7.** For every sequence of `add_log` calls starting from the empty
log, the ring holds at most 50 entries after every call, and its contents
are exactly the most recently appended lines in insertion order — the
length-`min 50` suffix of the appended sequence, so eviction is FIFO. -/
theorem C7_log_ring (lines : List String) :
    (lines.foldl SentinelState.add_log initState).ics_logs.length ≤ 50 ∧
    (lines.foldl SentinelState.add_log initState).ics_logs =
      lines.drop (lines.length - 50) := by
  have h := foldl_add_log lines initState (by simp [initState])
  have hinit : initState.ics_logs = ([] : List String) := rfl
  rw [hinit] at h
  simp only [List.nil_append] at h
  constructor
  · rw [h]
    unfold lastN
    rw [List.length_drop]
    omega
  · exact h

/-- Model of `modbus_loop` lines 103–104, the register-read failure branch:
`rr` falsy or `rr.isError()` ⇒ append the COMMS ERROR marker. -/
def modbusReadFail (s : SentinelState) : SentinelState :=
  s.add_log "[MODBUS] COMMS ERROR"

/-- **C9.** The read-failure branch appends exactly one COMMS ERROR line
(the log becomes the capacity-bounded suffix of the old log plus that one
line, and ends with it) and leaves the link status — and every other
shared-state field — unchanged. -/
theorem C9_read_failure_frame (s : SentinelState)
    (h : s.ics_logs.length ≤ 50) :
    (modbusReadFail s).ics_logs =
      lastN 50 (s.ics_logs ++ ["[MODBUS] COMMS ERROR"]) ∧
    (modbusReadFail s).ics_logs.getLast? = some "[MODBUS] COMMS ERROR" ∧
    (modbusReadFail s).plc_status = s.plc_status ∧
    (modbusReadFail s).verdict = s.verdict ∧
    (modbusReadFail s).visual_analysis = s.visual_analysis ∧
    (modbusReadFail s).lockdown = s.lockdown ∧
    (modbusReadFail s).host_cpu = s.host_cpu ∧
    (modbusReadFail s).host_ram = s.host_ram := by
  refine ⟨?_, add_log_getLast _ _, rfl, rfl, rfl, rfl, rfl, rfl⟩
  have := foldl_add_log ["[MODBUS] COMMS ERROR"] s h
  simpa using this

/-- Witness for C9 at the initial state. -/
theorem C9_read_failure_frame_witness :
    (modbusReadFail initState).plc_status = initState.plc_status :=
  (C9_read_failure_frame initState (by simp [initState])).2.2.1

/-! ## Telemetry decoding and the OK log line (C8)

`modbus_loop` lines 97–101: `real_temp = rr.registers[0] / 100.0`,
`real_pres = rr.registers[1] / 10.0`, rendered with `:.2f` and `:.1f`.
Registers are 16-bit unsigned values; division is modelled exactly over
`ℚ`, and the fixed-decimal rendering of a register value `r` is modelled
as the exact fixed-point string `(r / scale) ++ "." ++ digits of r mod
scale` (which agrees with Python's float rendering on the claim's
inputs, where `r / scale` is exactly representable). -/

/-- Decoding `rr.registers[0] / 100.0`: two-decimal temperature. -/
def decodeTemp (r : Nat) : ℚ := r / 100

/-- Decoding `rr.registers[1] / 10.0`: one-decimal pressure. -/
def decodePres (r : Nat) : ℚ := r / 10

/-- Two digits, zero-padded: the fraction part of `:.2f`. -/
def pad2 (n : Nat) : String :=
  if n < 10 then "0" ++ toString n else toString n

/-- Rendering `f"{r / 100.0:.2f}"` for an exactly-representable register value. -/
def fmtCenti (r : Nat) : String :=
  toString (r / 100) ++ "." ++ pad2 (r % 100)

/-- Rendering `f"{r / 10.0:.1f}"` for an exactly-representable register value. -/
def fmtDeci (r : Nat) : String :=
  toString (r / 10) ++ "." ++ toString (r % 10)

/-- Model of `modbus_loop` line 101: the STATUS OK log line. -/
def okLogLine (ts : String) (r0 r1 : Nat) : String :=
  "[" ++ ts ++ "] TEMP: " ++ fmtCenti r0 ++ "C | PRES: " ++ fmtDeci r1 ++
    " PSI | STATUS: OK"

theorem startsWithChars_self_append (n rest : List Char) :
    startsWithChars n (n ++ rest) = true := by
  induction n with
  | nil => rfl
  | cons a as ih => simp [startsWithChars, ih]

theorem containsRun_self_append (n suf : List Char) :
    containsRun n (n ++ suf) = true := by
  cases hn : n ++ suf with
  | nil =>
      have hne : n = [] := by
        cases n with
        | nil => rfl
        | cons a as => simp at hn
      rw [hne]
      rfl
  | cons b bs =>
      rw [containsRun, ← hn, startsWithChars_self_append]
      rfl

theorem containsRun_of_middle (pre n suf : List Char) :
    containsRun n (pre ++ (n ++ suf)) = true := by
  induction pre with
  | nil => rw [List.nil_append]; exact containsRun_self_append n suf
  | cons b bs ih => simp [containsRun, ih]

/-- Substring containment holds whenever the haystack splits around the
needle. -/
theorem strContains_of_split (hay needle a b : String)
    (h : hay = a ++ needle ++ b) : strContains hay needle = true := by
  unfold strContains
  rw [h]
  have : (a ++ needle ++ b).data = a.data ++ (needle.data ++ b.data) := by
    simp [String.data_append]
  rw [this]
  exact containsRun_of_middle a.data needle.data b.data

theorem fmtCenti_2200 : fmtCenti 2200 = "22.00" := by decide

theorem fmtDeci_450 : fmtDeci 450 = "45.0" := by decide

/-- **C8.** The first register is decoded as `value / 100` and the second
as `value / 10`; on registers `[2200, 450]` this yields temperature `22`
(rendered `"22.00"`) and pressure `45` (rendered `"45.0"`), and both
rendered values appear in the OK log line for any timestamp. -/
theorem C8_register_decode (ts : String) :
    decodeTemp 2200 = 22 ∧ decodePres 450 = 45 ∧
    strContains (okLogLine ts 2200 450) "22.00" = true ∧
    strContains (okLogLine ts 2200 450) "45.0" = true := by
  refine ⟨by norm_num [decodeTemp], by norm_num [decodePres], ?_, ?_⟩
  · refine strContains_of_split _ _ ("[" ++ ts ++ "] TEMP: ")
      ("C | PRES: " ++ fmtDeci 450 ++ " PSI | STATUS: OK") ?_
    unfold okLogLine
    rw [fmtCenti_2200]
    simp only [String.append_assoc]
  · refine strContains_of_split _ _
      ("[" ++ ts ++ "] TEMP: " ++ fmtCenti 2200 ++ "C | PRES: ")
      (" PSI | STATUS: OK") ?_
    unfold okLogLine
    rw [fmtDeci_450]

/-! ## The inference retry cycle (C4)

`vision_loop` lines 161–175.  One cycle makes up to two submissions
(`for attempt in range(2)`).  A successful response is parsed and
published, then the loop breaks.  An exception whose text contains
`"429"` (the rate-limit class) sleeps and continues to the next attempt;
any other exception is re-raised and caught by the outer handler, which
publishes the truncated `REASONING DELAY` analysis with verdict SECURE.
If both attempts are rate-limited the `for` loop is simply exhausted:
control falls out of it with *no* `update_analysis` call for this cycle. -/

/-- Outcome of one inference-service submission. -/
inductive InfOutcome where
  | success (txt : String)
  | rateLimit
  | failure (msg : String)
  deriving Repr, DecidableEq

/-- Model of `vision_loop` line 175: `f"REASONING DELAY: {str(e)[:30]}"`. -/
def reasoningDelayText (msg : String) : String :=
  "REASONING DELAY: " ++ String.mk (msg.data.take 30)

/-- The analysis published by one inference cycle, given the outcomes the
service would return for the first and (if made) second submission;
`none` means the cycle ends without any `update_analysis` call. -/
def inferCycle (o1 o2 : InfOutcome) : Option (String × String) :=
  match o1 with
  | InfOutcome.success txt => some (txt, parseVerdict txt)
  | InfOutcome.failure msg => some (reasoningDelayText msg, "SECURE")
  | InfOutcome.rateLimit =>
    match o2 with
    | InfOutcome.success txt => some (txt, parseVerdict txt)
    | InfOutcome.failure msg => some (reasoningDelayText msg, "SECURE")
    | InfOutcome.rateLimit => none

/-- Number of submissions the cycle makes: a second one happens exactly
when the first is rate-limited. -/
def inferSubmissions (o1 : InfOutcome) : Nat :=
  match o1 with
  | InfOutcome.rateLimit => 2
  | _ => 1

/-- **C4 counterexample.** When both submissions of a cycle are
rate-limited, the cycle ends with no published analysis at all — it does
not fall through to a visible "delay" analysis status. -/
theorem C4_counterexample :
    inferCycle InfOutcome.rateLimit InfOutcome.rateLimit = none := rfl

/-- **C4 (amended).** A rate-limited submission is retried at most one
additional time (at most two submissions per cycle; no retry on other
outcomes).  If the bounded retry is also rate-limited, the cycle is given
up with no analysis published; the visible `REASONING DELAY` SECURE
analysis is published only when an attempt fails with a non-rate-limit
error.  An inference failure never yields verdict ATTACK: a published
ATTACK verdict can only come from a successful response that parses to
ATTACK. -/
theorem C4_rate_limit_retry (o1 o2 : InfOutcome) :
    inferSubmissions o1 ≤ 2 ∧
    (o1 ≠ InfOutcome.rateLimit → inferSubmissions o1 = 1) ∧
    inferCycle InfOutcome.rateLimit InfOutcome.rateLimit = none ∧
    (∀ msg, inferCycle (InfOutcome.failure msg) o2 =
        some (reasoningDelayText msg, "SECURE")) ∧
    (∀ msg, inferCycle InfOutcome.rateLimit (InfOutcome.failure msg) =
        some (reasoningDelayText msg, "SECURE")) ∧
    (∀ txt v, inferCycle o1 o2 = some (txt, v) → v = "ATTACK" →
      (o1 = InfOutcome.success txt ∨
        (o1 = InfOutcome.rateLimit ∧ o2 = InfOutcome.success txt)) ∧
      parseVerdict txt = "ATTACK") := by
  refine ⟨?_, ?_, rfl, fun msg => rfl, fun msg => rfl, ?_⟩
  · cases o1 <;> simp [inferSubmissions]
  · intro h
    cases o1 with
    | success txt => rfl
    | rateLimit => exact absurd rfl h
    | failure msg => rfl
  · intro txt v hsome hv
    cases o1 with
    | success t =>
        rw [inferCycle] at hsome
        injection hsome with hpair
        injection hpair with ht hvv
        subst ht
        exact ⟨Or.inl rfl, hvv.trans hv⟩
    | failure msg =>
        rw [inferCycle] at hsome
        injection hsome with hpair
        injection hpair with ht hvv
        exact absurd (hvv.trans hv) (by decide)
    | rateLimit =>
        cases o2 with
        | success t =>
            rw [inferCycle] at hsome
            injection hsome with hpair
            injection hpair with ht hvv
            subst ht
            exact ⟨Or.inr ⟨rfl, rfl⟩, hvv.trans hv⟩
        | failure msg =>
            rw [inferCycle] at hsome
            injection hsome with hpair
            injection hpair with ht hvv
            exact absurd (hvv.trans hv) (by decide)
        | rateLimit => cases hsome

/-- Witness for C4's amended statement at concrete outcomes. -/
theorem C4_rate_limit_retry_witness :
    inferSubmissions (InfOutcome.failure "boom") = 1 :=
  (C4_rate_limit_retry (InfOutcome.failure "boom") InfOutcome.rateLimit).2.1
    (by decide)

end SentinelX
